import Mathlib

/-!
Verification development for the bingoserver room registry and
websocket connection multiplexer.

The embedding mirrors `src/room.rs` and `src/wshandler.rs`:

* Rust `HashMap` values become association lists with first-occurrence
  insert/remove semantics (`mapInsert`, `mapRemove`, `mapGet`); a map
  reachable through the API always has distinct keys, where duplicates
  would matter the statements carry the needed facts explicitly.
* `thread_rng().gen::<T>()` draws become explicit parameters of the
  operation that performs them.
* an `mpsc::UnboundedSender` becomes a `Pipe`: either a live channel
  with an identity, or the sink obtained by dropping the receiver of a
  fresh channel (as `mpsc::unbounded_channel().0` does in `Room::new`,
  `Room::create_from_entry` and `Room::remove_client`).
* a message delivery is recorded as a send attempt on a pipe
  (`Target` × payload), matching the `let _ = tx.send(...)` calls.
* the unchecked `self.rooms.get(..).unwrap()` lookups of
  `BingoServer` are modelled by `Option`: `none` is the fatal abort.
-/

namespace Bingo

/-- Rust type `RoomId = i32`; the claims never do modular arithmetic on
room ids, so they are embedded as integers. -/
abbrev RoomId := Int

/-- Rust type `ConnId = u32`. -/
abbrev ConnId := Nat

/-- Rust type `Msg = String`. -/
abbrev Msg := String

/-- `pub const USER_HOST : ConnId = 0`. -/
def USER_HOST : ConnId := 0

/-- `pub const USER_CLIENT : ConnId = 1`. -/
def USER_CLIENT : ConnId := 1

/-- An outbound channel endpoint: either a live channel (with an
identity distinguishing distinct channels) or the sink produced by
`mpsc::unbounded_channel().0` with its receiver immediately dropped. -/
inductive Pipe where
  | sink : Pipe
  | chan (n : Nat) : Pipe
deriving DecidableEq, Repr

section AssocMap

variable {κ α : Type} [DecidableEq κ]

/-- `HashMap::insert`: replace the (first) binding of the key if
present, otherwise add a new binding. -/
def mapInsert (k : κ) (v : α) : List (κ × α) → List (κ × α)
  | [] => [(k, v)]
  | (k₁, v₁) :: t => if k₁ = k then (k, v) :: t else (k₁, v₁) :: mapInsert k v t

/-- `HashMap::remove`: drop the (first) binding of the key. -/
def mapRemove (k : κ) : List (κ × α) → List (κ × α)
  | [] => []
  | (k₁, v₁) :: t => if k₁ = k then t else (k₁, v₁) :: mapRemove k t

/-- `HashMap::get`: the value bound to the key, if any. -/
def mapGet (k : κ) : List (κ × α) → Option α
  | [] => none
  | (k₁, v₁) :: t => if k₁ = k then some v₁ else mapGet k t

/-- `HashMap::contains_key`. -/
def mapHasKey (k : κ) (m : List (κ × α)) : Bool :=
  (mapGet k m).isSome

theorem mapGet_insert_self (k : κ) (v : α) (m : List (κ × α)) :
    mapGet k (mapInsert k v m) = some v := by
  induction m with
  | nil => simp [mapInsert, mapGet]
  | cons hd t ih =>
    obtain ⟨k₁, v₁⟩ := hd
    by_cases hk : k₁ = k <;> simp [mapInsert, mapGet, hk, ih]

theorem length_mapInsert_absent (k : κ) (v : α) (m : List (κ × α))
    (h : mapGet k m = none) :
    (mapInsert k v m).length = m.length + 1 := by
  induction m with
  | nil => simp [mapInsert]
  | cons hd t ih =>
    obtain ⟨k₁, v₁⟩ := hd
    by_cases hk : k₁ = k
    · simp [mapGet, hk] at h
    · simp only [mapGet, hk, if_false] at h
      simp [mapInsert, hk, ih h]

theorem length_mapInsert_present (k : κ) (v : α) (m : List (κ × α))
    (h : (mapGet k m).isSome) :
    (mapInsert k v m).length = m.length := by
  induction m with
  | nil => simp [mapGet] at h
  | cons hd t ih =>
    obtain ⟨k₁, v₁⟩ := hd
    by_cases hk : k₁ = k
    · simp [mapInsert, hk]
    · simp only [mapGet, hk, if_false] at h
      simp [mapInsert, hk, ih h]

theorem length_mapRemove_present (k : κ) (m : List (κ × α))
    (h : (mapGet k m).isSome) :
    (mapRemove k m).length + 1 = m.length := by
  induction m with
  | nil => simp [mapGet] at h
  | cons hd t ih =>
    obtain ⟨k₁, v₁⟩ := hd
    by_cases hk : k₁ = k
    · simp [mapRemove, hk]
    · simp only [mapGet, hk, if_false] at h
      simp [mapRemove, hk, ih h]

theorem mapRemove_absent (k : κ) (m : List (κ × α))
    (h : mapGet k m = none) :
    mapRemove k m = m := by
  induction m with
  | nil => simp [mapRemove]
  | cons hd t ih =>
    obtain ⟨k₁, v₁⟩ := hd
    by_cases hk : k₁ = k
    · simp [mapGet, hk] at h
    · simp only [mapGet, hk, if_false] at h
      simp [mapRemove, hk, ih h]

end AssocMap

/-- `struct Room` of `src/room.rs`: id, owning host identity, host
token, host outbound pipe, and the map of client connection ids to
their outbound pipes. -/
structure RoomState where
  id : RoomId
  host : String
  host_token : String
  host_pipe : Pipe
  sessions : List (ConnId × Pipe)
deriving DecidableEq, Repr

/-- `Room::new`, with the two random draws (`gen::<RoomId>()` for the
id and the 256-bit hex token) passed in explicitly; the host pipe is a
fresh channel whose receiver is dropped at once, i.e. a sink. -/
def Room.mkNew (host : String) (freshId : RoomId) (freshToken : String) : RoomState :=
  { id := freshId, host := host, host_token := freshToken,
    host_pipe := Pipe.sink, sessions := [] }

/-- `Room::create_from_entry`. -/
def Room.create_from_entry (host : String) (id : RoomId) (host_token : String) : RoomState :=
  { id := id, host := host, host_token := host_token,
    host_pipe := Pipe.sink, sessions := [] }

/-- `Room::add_client`, with the random `ConnId` draw passed in as
`rng`: a host join replaces the host pipe and returns 0; any other
join inserts the drawn id into `sessions` and returns it. -/
def Room.add_client (r : RoomState) (tx : Pipe) (user_type : ConnId) (rng : ConnId) :
    RoomState × ConnId :=
  if user_type = USER_HOST then
    ({ r with host_pipe := tx }, 0)
  else
    ({ r with sessions := mapInsert rng tx r.sessions }, rng)

/-- `Room::remove_client`: a host leave resets the host pipe to a
fresh dropped-receiver sink (ignoring `conn_id`); a client leave
removes `conn_id` from `sessions`. -/
def Room.remove_client (r : RoomState) (conn_id : ConnId) (user_type : ConnId) : RoomState :=
  if user_type = USER_HOST then
    { r with host_pipe := Pipe.sink }
  else
    { r with sessions := mapRemove conn_id r.sessions }

/-- A send attempt recorded by `broadcast` / `send`: either on the
host pipe of the room or on the pipe of a client session. -/
inductive Target where
  | toHost (p : Pipe) : Target
  | toSession (c : ConnId) (p : Pipe) : Target
deriving DecidableEq, Repr

/-- `Room::broadcast`: a client sender sends on the host pipe only;
any other sender sends on every session pipe. Returns the list of
send attempts (pipe tagged with the payload). -/
def Room.broadcast (r : RoomState) (msg : Msg) (user_type : ConnId) :
    List (Target × Msg) :=
  if user_type = USER_CLIENT then
    [(Target.toHost r.host_pipe, msg)]
  else
    r.sessions.map (fun kv => (Target.toSession kv.1 kv.2, msg))

/-- `Room::send`: deliver to the one session bound to `conn_id` if
present, otherwise do nothing. -/
def Room.send (r : RoomState) (conn_id : ConnId) (msg : Msg) : List (Target × Msg) :=
  match mapGet conn_id r.sessions with
  | none => []
  | some tx => [(Target.toSession conn_id tx, msg)]

/-- `struct RoomCreds` of `src/room.rs`. -/
structure RoomCreds where
  id : RoomId
  host : String
  token : String
deriving DecidableEq, Repr

/-- `struct BingoServer`: the room map plus the persistent store,
modelled as the list of `(id, host, token)` rows of the `rooms`
table. A database fetch error behaves exactly like an absent row
(logged and fallen through), so it needs no separate representation. -/
structure ServerState where
  rooms : List (RoomId × RoomState)
  db : List RoomCreds
deriving DecidableEq, Repr

/-- The `SELECT * FROM rooms WHERE host = $1 ... fetch_optional` query
of `BingoServer::create_room`. -/
def dbFindByHost (db : List RoomCreds) (host : String) : Option RoomCreds :=
  db.find? (fun row => row.host == host)

/-- The in-memory scan of `BingoServer::create_room`: the first room
whose `host` field matches, repackaged as credentials exactly as
`RoomCreds::new(room.id, host, room.host_token.clone())` does. -/
def scanRoomsForHost (rooms : List (RoomId × RoomState)) (host : String) : Option RoomCreds :=
  (rooms.find? (fun kv => kv.2.host == host)).map
    (fun kv => { id := kv.2.id, host := host, token := kv.2.host_token })

/-- `BingoServer::populate_rooms` on a fresh server: build the room
map from the persisted rows via `Room::create_from_entry`. -/
def BingoServer.populate_rooms (db : List RoomCreds) : List (RoomId × RoomState) :=
  db.foldl (fun m row => mapInsert row.id (Room.create_from_entry row.host row.id row.token) m) []

/-- `BingoServer::create_room`, with the two random draws of
`Room::new` passed in as `freshId`/`freshToken` and the best-effort
outcome of the `INSERT INTO rooms` statement as `dbInsertOk`. Order of
the source: database lookup by host, then in-memory scan by host,
then mint, insert into the map, and best-effort persist. -/
def BingoServer.create_room (s : ServerState) (host : String)
    (freshId : RoomId) (freshToken : String) (dbInsertOk : Bool) :
    RoomCreds × ServerState :=
  match dbFindByHost s.db host with
  | some row => (row, s)
  | none =>
    match scanRoomsForHost s.rooms host with
    | some creds => (creds, s)
    | none =>
      let room := Room.mkNew host freshId freshToken
      let rooms1 := mapInsert freshId room s.rooms
      let db1 := if dbInsertOk then s.db ++ [⟨freshId, host, freshToken⟩] else s.db
      (⟨freshId, host, freshToken⟩, { rooms := rooms1, db := db1 })

/-- `BingoServer::room_exists`. -/
def BingoServer.room_exists (s : ServerState) (room_id : RoomId) : Bool :=
  mapHasKey room_id s.rooms

/-- `BingoServer::has_room_host_privileges`: false when the room is
absent, otherwise equality of the candidate against the stored
`host_token`. Takes `&self`, so it returns no new state. -/
def BingoServer.has_room_host_privileges (s : ServerState) (room_id : RoomId)
    (host_token : String) : Bool :=
  match mapGet room_id s.rooms with
  | none => false
  | some room => room.host_token == host_token

/-- `BingoServer::add_client`: `self.rooms.get_mut(&room_id).unwrap()`
then delegate; `none` models the fatal unwrap on an absent room. -/
def BingoServer.add_client (s : ServerState) (room_id : RoomId) (tx : Pipe)
    (user_type : ConnId) (rng : ConnId) : Option (ServerState × ConnId) :=
  match mapGet room_id s.rooms with
  | none => none
  | some room =>
    let p := Room.add_client room tx user_type rng
    some ({ s with rooms := mapInsert room_id p.1 s.rooms }, p.2)

/-- `BingoServer::remove_client`: unchecked lookup then delegate. -/
def BingoServer.remove_client (s : ServerState) (room_id : RoomId)
    (conn_id : ConnId) (user_type : ConnId) : Option ServerState :=
  match mapGet room_id s.rooms with
  | none => none
  | some room =>
    some { s with rooms := mapInsert room_id (Room.remove_client room conn_id user_type) s.rooms }

/-- `BingoServer::broadcast`: unchecked lookup then delegate; takes
`&self`, so only the send attempts come back. -/
def BingoServer.broadcast (s : ServerState) (room_id : RoomId) (msg : Msg)
    (user_type : ConnId) : Option (List (Target × Msg)) :=
  match mapGet room_id s.rooms with
  | none => none
  | some room => some (Room.broadcast room msg user_type)

/-- `BingoServer::send`: unchecked lookup then delegate. -/
def BingoServer.send (s : ServerState) (room_id : RoomId) (conn_id : ConnId)
    (msg : Msg) : Option (List (Target × Msg)) :=
  match mapGet room_id s.rooms with
  | none => none
  | some room => some (Room.send room conn_id msg)

/-- `enum Command` of `src/room.rs`, with the reply slot left to the
step function and random draws / persistence outcome made explicit. -/
inductive Command where
  | create (host : String) (freshId : RoomId) (freshToken : String) (dbInsertOk : Bool)
  | roomExists (room_id : RoomId)
  | roomHostAuth (room_id : RoomId) (host_token : String)
  | connect (room : RoomId) (conn_tx : Pipe) (user_type : ConnId) (rng : ConnId)
  | disconnect (room : RoomId) (conn : ConnId) (user_type : ConnId)
  | update (room : RoomId) (msg : Msg) (user_type : ConnId)
  | sendTo (room : RoomId) (conn : ConnId) (msg : Msg)
deriving DecidableEq, Repr

/-- The value the actor puts in the one-shot reply slot (when the
command carries one). -/
inductive Reply where
  | creds (c : RoomCreds)
  | flag (b : Bool)
  | conn (c : ConnId)
  | unitReply
deriving DecidableEq, Repr

/-- One iteration of `BingoServer::run`: dispatch a command to the
matching method. `none` is the fatal abort of an unchecked room
lookup, which kills the actor task. -/
def BingoServer.step (s : ServerState) (cmd : Command) :
    Option (ServerState × List (Target × Msg) × Reply) :=
  match cmd with
  | .create host fid ftok ok =>
    let p := BingoServer.create_room s host fid ftok ok
    some (p.2, [], .creds p.1)
  | .roomExists rid => some (s, [], .flag (BingoServer.room_exists s rid))
  | .roomHostAuth rid tok =>
    some (s, [], .flag (BingoServer.has_room_host_privileges s rid tok))
  | .connect rid tx ut rng =>
    match BingoServer.add_client s rid tx ut rng with
    | none => none
    | some p => some (p.1, [], .conn p.2)
  | .disconnect rid conn ut =>
    match BingoServer.remove_client s rid conn ut with
    | none => none
    | some s1 => some (s1, [], .unitReply)
  | .update rid msg ut =>
    match BingoServer.broadcast s rid msg ut with
    | none => none
    | some ds => some (s, ds, .unitReply)
  | .sendTo rid conn msg =>
    match BingoServer.send s rid conn msg with
    | none => none
    | some ds => some (s, ds, .unitReply)

/-! JSON values and the fragment of `serde_json` used by
`src/wshandler.rs`: `from_str::<WSMessage>` needs a full JSON value
parse of the frame, then extraction of a string field named `type`
(other fields ignored, a duplicate or missing or non-string `type`
field is an error, trailing non-whitespace is an error). Number
lexemes are kept verbatim, since no caller inspects them. -/

/-- A parsed JSON value. -/
inductive JVal where
  | jnull : JVal
  | jbool (b : Bool) : JVal
  | jnum (lexeme : String) : JVal
  | jstr (s : String) : JVal
  | jarr (elems : List JVal) : JVal
  | jobj (fields : List (String × JVal)) : JVal

/-- The opening-brace character, kept out of literal position. -/
def lbrace : Char := Char.ofNat 123

/-- The closing-brace character, kept out of literal position. -/
def rbrace : Char := Char.ofNat 125

/-- JSON insignificant whitespace. -/
def isJsonWs (c : Char) : Bool :=
  c = ' ' || c = Char.ofNat 9 || c = Char.ofNat 10 || c = Char.ofNat 13

/-- Skip insignificant whitespace. -/
def skipWs : List Char → List Char
  | [] => []
  | c :: t => if isJsonWs c then skipWs t else c :: t

/-- Value of one hexadecimal digit. -/
def hexDigitVal (c : Char) : Option Nat :=
  if c.isDigit then some (c.toNat - 48)
  else if 97 ≤ c.toNat && c.toNat ≤ 102 then some (c.toNat - 87)
  else if 65 ≤ c.toNat && c.toNat ≤ 70 then some (c.toNat - 55)
  else none

/-- Single-character JSON string escapes. -/
def escChar : Char → Option Char
  | '"' => some '"'
  | '\\' => some '\\'
  | '/' => some '/'
  | 'b' => some (Char.ofNat 8)
  | 'f' => some (Char.ofNat 12)
  | 'n' => some (Char.ofNat 10)
  | 'r' => some (Char.ofNat 13)
  | 't' => some (Char.ofNat 9)
  | _ => none

/-- Value of four hexadecimal digits. -/
def hex4 (a b c d : Char) : Option Nat :=
  match hexDigitVal a, hexDigitVal b, hexDigitVal c, hexDigitVal d with
  | some ha, some hb, some hc, some hd => some (((ha * 16 + hb) * 16 + hc) * 16 + hd)
  | _, _, _, _ => none

/-- Body of a JSON string literal, after the opening quote: the
decoded characters and the input after the closing quote. Control
characters must be escaped. `\uXXXX` follows serde_json: a low
surrogate alone is an error, a high surrogate must be followed
immediately by the escape of a low surrogate and the pair decodes to
the one combined code point, and any other code unit decodes to
itself. -/
def parseStrBody : List Char → Option (List Char × List Char)
  | [] => none
  | '"' :: t => some ([], t)
  | '\\' :: 'u' :: a :: b :: c :: d :: t =>
    match hex4 a b c d with
    | none => none
    | some n =>
      if 0xDC00 ≤ n ∧ n ≤ 0xDFFF then none
      else if 0xD800 ≤ n ∧ n ≤ 0xDBFF then
        match t with
        | '\\' :: 'u' :: e :: f :: g :: h :: t2 =>
          match hex4 e f g h with
          | none => none
          | some m =>
            if 0xDC00 ≤ m ∧ m ≤ 0xDFFF then
              (parseStrBody t2).map (fun p =>
                (Char.ofNat (0x10000 + (n - 0xD800) * 0x400 + (m - 0xDC00)) :: p.1, p.2))
            else none
        | _ => none
      else (parseStrBody t).map (fun p => (Char.ofNat n :: p.1, p.2))
  | '\\' :: e :: t =>
    match escChar e with
    | none => none
    | some c => (parseStrBody t).map (fun p => (c :: p.1, p.2))
  | c :: t =>
    if c.toNat < 32 then none
    else (parseStrBody t).map (fun p => (c :: p.1, p.2))

/-- Longest leading run of decimal digits. -/
def spanDigits : List Char → List Char × List Char
  | [] => ([], [])
  | c :: t =>
    if c.isDigit then
      let p := spanDigits t
      (c :: p.1, p.2)
    else ([], c :: t)

/-- Optional fraction part of a JSON number. -/
def parseFrac : List Char → Option (List Char × List Char)
  | '.' :: t =>
    let p := spanDigits t
    if p.1.isEmpty then none else some ('.' :: p.1, p.2)
  | cs => some ([], cs)

/-- Optional exponent part of a JSON number. -/
def parseExp : List Char → Option (List Char × List Char)
  | [] => some ([], [])
  | c :: t =>
    if c = 'e' || c = 'E' then
      match t with
      | [] => none
      | s :: t2 =>
        if s = '+' || s = '-' then
          let p := spanDigits t2
          if p.1.isEmpty then none else some (c :: s :: p.1, p.2)
        else
          let p := spanDigits t
          if p.1.isEmpty then none else some (c :: p.1, p.2)
    else some ([], c :: t)

/-- A JSON number: optional sign, integer part without leading
zeros, optional fraction and exponent; the lexeme is kept. -/
def parseNum (cs : List Char) : Option (JVal × List Char) :=
  let sp : List Char × List Char :=
    match cs with
    | '-' :: t => (['-'], t)
    | _ => ([], cs)
  match sp.2 with
  | [] => none
  | c :: t =>
    if c.isDigit then
      let ip : List Char × List Char :=
        if c = '0' then (['0'], t) else spanDigits (c :: t)
      match parseFrac ip.2 with
      | none => none
      | some fp =>
        match parseExp fp.2 with
        | none => none
        | some ep =>
          some (JVal.jnum (String.mk (sp.1 ++ ip.1 ++ fp.1 ++ ep.1)), ep.2)
    else none

mutual

/-- A JSON value, fuelled: the fuel bounds nesting plus element
count and is instantiated with the input length plus one. -/
def parseVal (fuel : Nat) (cs : List Char) : Option (JVal × List Char) :=
  match fuel with
  | 0 => none
  | Nat.succ f =>
    match skipWs cs with
    | [] => none
    | c :: t =>
      if c = 'n' then
        match t with
        | 'u' :: 'l' :: 'l' :: r => some (JVal.jnull, r)
        | _ => none
      else if c = 't' then
        match t with
        | 'r' :: 'u' :: 'e' :: r => some (JVal.jbool true, r)
        | _ => none
      else if c = 'f' then
        match t with
        | 'a' :: 'l' :: 's' :: 'e' :: r => some (JVal.jbool false, r)
        | _ => none
      else if c = '"' then
        (parseStrBody t).map (fun p => (JVal.jstr (String.mk p.1), p.2))
      else if c = '[' then
        match skipWs t with
        | ']' :: r => some (JVal.jarr [], r)
        | _ => (parseElems f t).map (fun p => (JVal.jarr p.1, p.2))
      else if c = lbrace then
        match skipWs t with
        | c2 :: r =>
          if c2 = rbrace then some (JVal.jobj [], r)
          else (parseFields f t).map (fun p => (JVal.jobj p.1, p.2))
        | [] => none
      else parseNum (c :: t)

/-- Comma-separated array elements up to the closing bracket. -/
def parseElems (fuel : Nat) (cs : List Char) : Option (List JVal × List Char) :=
  match fuel with
  | 0 => none
  | Nat.succ f =>
    match parseVal f cs with
    | none => none
    | some (v, r) =>
      match skipWs r with
      | c :: r2 =>
        if c = ',' then (parseElems f r2).map (fun p => (v :: p.1, p.2))
        else if c = ']' then some ([v], r2)
        else none
      | [] => none

/-- Comma-separated object members up to the closing brace. -/
def parseFields (fuel : Nat) (cs : List Char) :
    Option (List (String × JVal) × List Char) :=
  match fuel with
  | 0 => none
  | Nat.succ f =>
    match skipWs cs with
    | [] => none
    | c :: t =>
      if c = '"' then
        match parseStrBody t with
        | none => none
        | some (key, r) =>
          match skipWs r with
          | c2 :: r2 =>
            if c2 = ':' then
              match parseVal f r2 with
              | none => none
              | some (v, r3) =>
                match skipWs r3 with
                | c3 :: r4 =>
                  if c3 = ',' then
                    (parseFields f r4).map
                      (fun p => ((String.mk key, v) :: p.1, p.2))
                  else if c3 = rbrace then some ([(String.mk key, v)], r4)
                  else none
                | [] => none
            else none
          | [] => none
      else none

end

/-- Deserialization of `struct WSMessage` from a parsed value,
following the serde derive: a JSON object with exactly one member
named `type` holding a string (other members are ignored, a duplicate
`type` is an error), or — since derived struct deserialization also
accepts a sequence, reading the fields positionally and then
requiring the end of the array — a one-element array holding the
`type` string. Anything else is an error. -/
def wsMessageType (j : JVal) : Option String :=
  match j with
  | JVal.jobj fields =>
    match fields.filter (fun kv => kv.1 == "type") with
    | [(_, JVal.jstr s)] => some s
    | _ => none
  | JVal.jarr [JVal.jstr s] => some s
  | _ => none

/-- `serde_json::from_str::<WSMessage>`: parse the whole frame as one
JSON value (allowing surrounding whitespace only) and extract the
`type` field. `none` is a deserialization error. -/
def parseWSMessage (s : String) : Option String :=
  match parseVal (s.data.length + 1) s.data with
  | none => none
  | some (j, rest) => if skipWs rest = [] then wsMessageType j else none

/-- `serde_json::to_string(&IDMessage::new(conn_id))`: fields in
declaration order. -/
def idMessageJson (conn_id : ConnId) : String :=
  "\x7b\"type\":\"id\",\"conn_id\":" ++ toString conn_id ++ "\x7d"

/-! The connection multiplexer of `src/wshandler.rs`, as a transition
system over the events its select loop can observe. Timestamps on
ping, pong and timer events model `Instant::now()`; the loop state is
`last_heartbeat`. Session writes are modelled as always succeeding
(an actix write failure unwinds through an `unwrap`, aborting the
task rather than exiting the loop). -/

/-- `HEARTBEAT_INTERVAL`, in seconds. -/
def HEARTBEAT_INTERVAL : Nat := 5

/-- `CLIENT_TIMEOUT`, in seconds. -/
def CLIENT_TIMEOUT : Nat := 10

/-- One observable event of the select loop. -/
inductive LoopEvent where
  | ping (t : Nat) : LoopEvent
  | pong (t : Nat) : LoopEvent
  | closeFrame (reason : Option String) : LoopEvent
  | binaryMsg : LoopEvent
  | textMsg (s : String) : LoopEvent
  | streamErr : LoopEvent
  | streamEnd : LoopEvent
  | roomUpdate (m : Msg) : LoopEvent
  | tick (t : Nat) : LoopEvent
deriving DecidableEq, Repr

/-- An externally visible action of the handler. -/
inductive HandlerAct where
  | pongReply : HandlerAct
  | sendText (s : String) : HandlerAct
  | runCallback (s : String) : HandlerAct
  | sendPing : HandlerAct
  | actorDisconnect (room : RoomId) (conn : ConnId) (user_type : ConnId) : HandlerAct
  | closeSession (reason : Option String) : HandlerAct
deriving DecidableEq, Repr

/-- The `AggregatedMessage::Text` arm: a frame that fails to parse is
logged and skipped; `type == "request_id"` is answered locally with
the id envelope; anything else goes verbatim to the injected command
callback. -/
def handleText (conn_id : ConnId) (text : String) : List HandlerAct :=
  match parseWSMessage text with
  | none => []
  | some ty =>
    if ty = "request_id" then [HandlerAct.sendText (idMessageJson conn_id)]
    else [HandlerAct.runCallback text]

/-- One iteration of the select loop: the emitted actions, and either
the next `last_heartbeat` (continue) or the close reason (exit). -/
def loopStep (conn_id : ConnId) (last_heartbeat : Nat) (e : LoopEvent) :
    List HandlerAct × (Nat ⊕ Option String) :=
  match e with
  | LoopEvent.ping t => ([HandlerAct.pongReply], Sum.inl t)
  | LoopEvent.pong t => ([], Sum.inl t)
  | LoopEvent.closeFrame reason => ([], Sum.inr reason)
  | LoopEvent.binaryMsg => ([], Sum.inl last_heartbeat)
  | LoopEvent.textMsg s => (handleText conn_id s, Sum.inl last_heartbeat)
  | LoopEvent.streamErr => ([], Sum.inl last_heartbeat)
  | LoopEvent.streamEnd => ([], Sum.inr none)
  | LoopEvent.roomUpdate m => ([HandlerAct.sendText m], Sum.inl last_heartbeat)
  | LoopEvent.tick t =>
    if CLIENT_TIMEOUT < t - last_heartbeat then ([], Sum.inr none)
    else ([HandlerAct.sendPing], Sum.inl last_heartbeat)

/-- The loop over a finite event trace: all actions emitted, and the
close reason when some event made the loop exit (`none`: the trace
ran out with the loop still live). Events after the exiting one are
never observed. -/
def runLoop (conn_id : ConnId) (last_heartbeat : Nat) :
    List LoopEvent → List HandlerAct × Option (Option String)
  | [] => ([], none)
  | e :: rest =>
    match loopStep conn_id last_heartbeat e with
    | (acts, Sum.inr reason) => (acts, some reason)
    | (acts, Sum.inl lhb) =>
      let p := runLoop conn_id lhb rest
      (acts ++ p.1, p.2)

/-- `ws_handler` after registration, on a finite event trace: when
the loop exits, the handler deregisters through the handle and then
attempts the graceful close, in that order; `none` when the trace
leaves the loop still running. -/
def wsHandlerRun (room : RoomId) (user_type conn_id : ConnId)
    (last_heartbeat : Nat) (events : List LoopEvent) : Option (List HandlerAct) :=
  match runLoop conn_id last_heartbeat events with
  | (acts, some reason) =>
    some (acts ++ [HandlerAct.actorDisconnect room conn_id user_type,
                   HandlerAct.closeSession reason])
  | (_, none) => none

/-- Recognizer for the deregistration action. -/
def isDisconnectAct : HandlerAct → Bool
  | HandlerAct.actorDisconnect _ _ _ => true
  | _ => false

/-- The sequence of room operations a connection lifecycle produces:
joins and leaves, with the random draw of a join made explicit. -/
inductive RoomOp where
  | join (pipe : Pipe) (user_type : ConnId) (rng : ConnId) : RoomOp
  | leave (conn : ConnId) (user_type : ConnId) : RoomOp
deriving DecidableEq, Repr

/-- Apply one operation to a room (the returned id of a join is
dropped here; it equals the draw, see the claim on join ids). -/
def applyOp (r : RoomState) : RoomOp → RoomState
  | RoomOp.join p ut rng => (Room.add_client r p ut rng).1
  | RoomOp.leave c ut => Room.remove_client r c ut

/-- Apply a finite sequence of operations. -/
def applyOps (r : RoomState) (ops : List RoomOp) : RoomState :=
  ops.foldl applyOp r

/-- Number of joins with the client role in a sequence. -/
def numClientJoins : List RoomOp → Nat
  | [] => 0
  | RoomOp.join _ ut _ :: t => (if ut = USER_CLIENT then 1 else 0) + numClientJoins t
  | RoomOp.leave _ _ :: t => numClientJoins t

/-- Number of client leaves that named an id actually present in the
session map at the moment the leave ran. -/
def effClientLeaves (r : RoomState) : List RoomOp → Nat
  | [] => 0
  | op :: t =>
    (match op with
     | RoomOp.leave c ut =>
       if ut = USER_CLIENT then (if mapHasKey c r.sessions then 1 else 0) else 0
     | _ => 0) + effClientLeaves (applyOp r op) t

/-- Every client join in the sequence draws an id not currently bound
in the session map (the source never checks this; it holds with
overwhelming probability over a 32-bit draw). -/
def collisionFree (r : RoomState) : List RoomOp → Bool
  | [] => true
  | op :: t =>
    (match op with
     | RoomOp.join _ ut rng => ut == USER_HOST || !(mapHasKey rng r.sessions)
     | _ => true) && collisionFree (applyOp r op) t

/-- Every operation carries one of the two roles the call sites use. -/
def rolesOk : List RoomOp → Bool
  | [] => true
  | op :: t =>
    (match op with
     | RoomOp.join _ ut _ => ut == USER_HOST || ut == USER_CLIENT
     | RoomOp.leave _ ut => ut == USER_HOST || ut == USER_CLIENT) && rolesOk t

/-- A one-room registry used to instantiate theorems with hypotheses. -/
def sampleServer : ServerState :=
  { rooms := [(1, Room.mkNew ("alice") 1 ("tok"))], db := [] }

theorem find?_append_of_none {α : Type} (p : α → Bool) (l1 l2 : List α)
    (h : l1.find? p = none) : (l1 ++ l2).find? p = l2.find? p := by
  induction l1 with
  | nil => simp
  | cons a t ih =>
    cases hpa : p a with
    | true =>
      rw [List.find?_cons_of_pos _ hpa] at h
      simp at h
    | false =>
      have hneg : ¬ p a = true := by simp [hpa]
      rw [List.find?_cons_of_neg _ hneg] at h
      rw [List.cons_append, List.find?_cons_of_neg _ hneg]
      exact ih h

theorem find?_mapInsert_of_none {κ α : Type} [DecidableEq κ] (p : κ × α → Bool)
    (k : κ) (v : α) (m : List (κ × α)) (hm : m.find? p = none)
    (hp : p (k, v) = true) : (mapInsert k v m).find? p = some (k, v) := by
  induction m with
  | nil =>
    simp only [mapInsert]
    exact List.find?_cons_of_pos _ hp
  | cons hd t ih =>
    obtain ⟨k1, v1⟩ := hd
    cases hpa : p (k1, v1) with
    | true =>
      rw [List.find?_cons_of_pos _ hpa] at hm
      simp at hm
    | false =>
      have hneg : ¬ p (k1, v1) = true := by simp [hpa]
      rw [List.find?_cons_of_neg _ hneg] at hm
      by_cases hk : k1 = k
      · simp only [mapInsert, hk, if_true]
        exact List.find?_cons_of_pos _ hp
      · simp only [mapInsert, hk, if_false]
        rw [List.find?_cons_of_neg _ hneg]
        exact ih hm

theorem loopStep_filter_disc (conn_id last_hb : Nat) (e : LoopEvent) :
    (loopStep conn_id last_hb e).1.filter isDisconnectAct = [] := by
  cases e with
  | textMsg s =>
    simp only [loopStep, handleText]
    cases parseWSMessage s with
    | none => simp
    | some ty =>
      by_cases hty : ty = "request_id" <;> simp [hty, isDisconnectAct]
  | tick t =>
    simp only [loopStep]
    split <;> simp [isDisconnectAct]
  | ping t => simp [loopStep, isDisconnectAct]
  | pong t => simp [loopStep]
  | closeFrame reason => simp [loopStep]
  | binaryMsg => simp [loopStep]
  | streamErr => simp [loopStep]
  | streamEnd => simp [loopStep]
  | roomUpdate m => simp [loopStep, isDisconnectAct]

theorem runLoop_filter_disc (conn_id : Nat) (events : List LoopEvent) :
    ∀ last_hb : Nat, ((runLoop conn_id last_hb events).1.filter isDisconnectAct) = [] := by
  induction events with
  | nil => intro last_hb; simp [runLoop]
  | cons e rest ih =>
    intro last_hb
    simp only [runLoop]
    rcases hstep : loopStep conn_id last_hb e with ⟨acts, ex⟩
    have hacts : acts.filter isDisconnectAct = [] := by
      have hh := loopStep_filter_disc conn_id last_hb e
      rw [hstep] at hh
      exact hh
    cases ex with
    | inr reason => simpa using hacts
    | inl lhb2 => simp [List.filter_append, hacts, ih lhb2]

/-- Claim C2: for every finite event trace on which the select loop
exits — close frame, stream end, or heartbeat timeout — the handler
emits the Disconnect command exactly once, with this connection id
and role; the loop body itself never emits it, so there is neither a
missing nor a doubled deregistration. -/
theorem c2_disconnect_exactly_once (room : RoomId) (user_type conn_id last_hb : Nat)
    (events : List LoopEvent) (acts : List HandlerAct)
    (h : wsHandlerRun room user_type conn_id last_hb events = some acts) :
    acts.filter isDisconnectAct = [HandlerAct.actorDisconnect room conn_id user_type] ∧
    acts.countP isDisconnectAct = 1 := by
  unfold wsHandlerRun at h
  rcases hrl : runLoop conn_id last_hb events with ⟨la, ex⟩
  rw [hrl] at h
  have hla : la.filter isDisconnectAct = [] := by
    have hh := runLoop_filter_disc conn_id events last_hb
    rw [hrl] at hh
    exact hh
  cases ex with
  | none => simp at h
  | some reason =>
    simp only [Option.some.injEq] at h
    subst h
    constructor
    · simp [List.filter_append, hla, isDisconnectAct]
    · rw [List.countP_eq_length_filter]
      simp [List.filter_append, hla, isDisconnectAct]

/-- Claim C2, witness: a trace ending by stream end yields exactly
one Disconnect, correctly addressed. -/
theorem c2_disconnect_exactly_once_witness :
    ([HandlerAct.actorDisconnect 1 7 0, HandlerAct.closeSession none].filter isDisconnectAct
        = [HandlerAct.actorDisconnect 1 7 0]) ∧
    ([HandlerAct.actorDisconnect 1 7 0, HandlerAct.closeSession none].countP isDisconnectAct = 1) :=
  c2_disconnect_exactly_once 1 0 7 0 [LoopEvent.streamEnd]
    [HandlerAct.actorDisconnect 1 7 0, HandlerAct.closeSession none] (by rfl)

/-- Claim C3, counterexample: a client join whose random draw is 0
returns ConnId 0 and binds key 0 in the session map, so 0 is not in
fact reserved to the host slot. -/
theorem c3_counterexample :
    (Room.add_client (Room.mkNew ("alice") 1 ("tok")) (Pipe.chan 5) USER_CLIENT 0).2 = 0 ∧
    mapGet 0 ((Room.add_client (Room.mkNew ("alice") 1 ("tok")) (Pipe.chan 5) USER_CLIENT 0).1).sessions
      = some (Pipe.chan 5) :=
  ⟨rfl, rfl⟩

/-- Claim C3, amended: a host join returns ConnId 0; a client join
returns exactly the randomly drawn ConnId and binds it in the session
map, with no reservation check, so the result is nonzero only when
the draw is nonzero. -/
theorem c3_join_conn_ids (r : RoomState) (tx : Pipe) (rng : ConnId) :
    (Room.add_client r tx USER_HOST rng).2 = 0 ∧
    (Room.add_client r tx USER_CLIENT rng).2 = rng ∧
    mapGet rng ((Room.add_client r tx USER_CLIENT rng).1).sessions = some tx ∧
    (rng ≠ 0 → (Room.add_client r tx USER_CLIENT rng).2 ≠ 0) := by
  refine ⟨?_, ?_, ?_, ?_⟩
  · simp [Room.add_client, USER_HOST]
  · simp [Room.add_client, USER_HOST, USER_CLIENT]
  · simp [Room.add_client, USER_HOST, USER_CLIENT, mapGet_insert_self]
  · intro hne
    simpa [Room.add_client, USER_HOST, USER_CLIENT] using hne

/-- Claim C3, witness: with a nonzero draw the client join returns a
nonzero id. -/
theorem c3_join_conn_ids_witness :
    (Room.add_client (Room.mkNew ("bob") 2 ("tk")) (Pipe.chan 3) USER_CLIENT 7).2 ≠ 0 :=
  (c3_join_conn_ids (Room.mkNew ("bob") 2 ("tk")) (Pipe.chan 3) 7).2.2.2 (by decide)

/-- Claim C4: on a room id absent from the map, the four delegating
commands hit the unchecked lookup and abort the actor (modelled as
none), while RoomExists and VerifyHostToken return normally with
false. -/
theorem c4_absent_room_fatal (s : ServerState) (rid : RoomId) (tx : Pipe)
    (ut rng conn : ConnId) (msg : Msg) (tok : String)
    (h : mapGet rid s.rooms = none) :
    BingoServer.step s (Command.connect rid tx ut rng) = none ∧
    BingoServer.step s (Command.disconnect rid conn ut) = none ∧
    BingoServer.step s (Command.update rid msg ut) = none ∧
    BingoServer.step s (Command.sendTo rid conn msg) = none ∧
    BingoServer.step s (Command.roomExists rid) = some (s, [], Reply.flag false) ∧
    BingoServer.step s (Command.roomHostAuth rid tok) = some (s, [], Reply.flag false) := by
  refine ⟨?_, ?_, ?_, ?_, ?_, ?_⟩ <;>
    simp [BingoServer.step, BingoServer.add_client, BingoServer.remove_client,
      BingoServer.broadcast, BingoServer.send, BingoServer.room_exists, mapHasKey,
      BingoServer.has_room_host_privileges, h]

/-- Claim C4, witness: the empty registry at room id 5. -/
theorem c4_absent_room_fatal_witness :
    BingoServer.step ⟨[], []⟩ (Command.connect 5 (Pipe.chan 1) USER_CLIENT 3) = none :=
  (c4_absent_room_fatal ⟨[], []⟩ 5 (Pipe.chan 1) USER_CLIENT 3 9 ("m") ("tok") (by rfl)).1

/-- Claim C5: VerifyHostToken is true exactly when the room is in the
map and the candidate equals the stored host token; an absent room
gives false, not an error, and the command leaves the registry state
unchanged. -/
theorem c5_verify_host_token (s : ServerState) (rid : RoomId) (tok : String) :
    (BingoServer.has_room_host_privileges s rid tok = true ↔
      ∃ r, mapGet rid s.rooms = some r ∧ r.host_token = tok) ∧
    BingoServer.step s (Command.roomHostAuth rid tok) =
      some (s, [], Reply.flag (BingoServer.has_room_host_privileges s rid tok)) := by
  constructor
  · unfold BingoServer.has_room_host_privileges
    cases h : mapGet rid s.rooms with
    | none => simp
    | some room => simp [beq_iff_eq]
  · rfl

/-- Claim C5, witness: the stored token verifies on the sample
registry. -/
theorem c5_verify_host_token_witness :
    BingoServer.has_room_host_privileges sampleServer 1 ("tok") = true :=
  (c5_verify_host_token sampleServer 1 ("tok")).1.mpr
    ⟨Room.mkNew ("alice") 1 ("tok"), rfl, rfl⟩

/-- Claim C6: a client broadcast is one send attempt, on the host
pipe; a host broadcast is one send attempt per current session, and
none on the host pipe. -/
theorem c6_broadcast_routing (r : RoomState) (msg : Msg) :
    Room.broadcast r msg USER_CLIENT = [(Target.toHost r.host_pipe, msg)] ∧
    Room.broadcast r msg USER_HOST =
      r.sessions.map (fun kv => (Target.toSession kv.1 kv.2, msg)) ∧
    (∀ c p, (Target.toSession c p, msg) ∉ Room.broadcast r msg USER_CLIENT) ∧
    (∀ p m, (Target.toHost p, m) ∉ Room.broadcast r msg USER_HOST) := by
  refine ⟨?_, ?_, ?_, ?_⟩
  · simp [Room.broadcast]
  · simp [Room.broadcast, USER_HOST, USER_CLIENT]
  · intro c p
    simp [Room.broadcast]
  · intro p m
    simp [Room.broadcast, USER_HOST, USER_CLIENT]

/-- Claim C6, witness: in a fresh room with no host pipe replaced, a
client broadcast reaches no session pipe. -/
theorem c6_broadcast_routing_witness :
    (Target.toSession 3 (Pipe.chan 2), "m") ∉
      Room.broadcast (Room.mkNew ("alice") 1 ("tok")) ("m") USER_CLIENT :=
  (c6_broadcast_routing (Room.mkNew ("alice") 1 ("tok")) ("m")).2.2.1 3 (Pipe.chan 2)

theorem create_room_db_found (s : ServerState) (host : String) (c : RoomCreds)
    (a : RoomId) (b : String) (d : Bool) (h : dbFindByHost s.db host = some c) :
    BingoServer.create_room s host a b d = (c, s) := by
  simp [BingoServer.create_room, h]

theorem create_room_scan_found (s : ServerState) (host : String) (c : RoomCreds)
    (a : RoomId) (b : String) (d : Bool) (h1 : dbFindByHost s.db host = none)
    (h2 : scanRoomsForHost s.rooms host = some c) :
    BingoServer.create_room s host a b d = (c, s) := by
  simp [BingoServer.create_room, h1, h2]

theorem create_room_mint (s : ServerState) (host : String)
    (fid : RoomId) (ftok : String) (ok : Bool) (h1 : dbFindByHost s.db host = none)
    (h2 : scanRoomsForHost s.rooms host = none) :
    BingoServer.create_room s host fid ftok ok =
      (⟨fid, host, ftok⟩,
       { rooms := mapInsert fid (Room.mkNew host fid ftok) s.rooms,
         db := if ok then s.db ++ [⟨fid, host, ftok⟩] else s.db }) := by
  simp [BingoServer.create_room, h1, h2]

theorem create_room_after_mint (s : ServerState) (host : String)
    (fid : RoomId) (ftok : String) (ok : Bool)
    (h1 : dbFindByHost s.db host = none) (h2 : scanRoomsForHost s.rooms host = none)
    (fid2 : RoomId) (ftok2 : String) (ok2 : Bool) :
    BingoServer.create_room (BingoServer.create_room s host fid ftok ok).2 host fid2 ftok2 ok2
      = BingoServer.create_room s host fid ftok ok := by
  rw [create_room_mint s host fid ftok ok h1 h2]
  cases ok with
  | true =>
    have hred : (if (true : Bool) then s.db ++ [(⟨fid, host, ftok⟩ : RoomCreds)] else s.db)
        = s.db ++ [(⟨fid, host, ftok⟩ : RoomCreds)] := rfl
    rw [hred]
    have hf : dbFindByHost (s.db ++ [(⟨fid, host, ftok⟩ : RoomCreds)]) host
        = some ⟨fid, host, ftok⟩ := by
      unfold dbFindByHost at h1 ⊢
      rw [find?_append_of_none _ _ _ h1]
      simp [List.find?]
    exact create_room_db_found
      ⟨mapInsert fid (Room.mkNew host fid ftok) s.rooms,
       s.db ++ [(⟨fid, host, ftok⟩ : RoomCreds)]⟩
      host ⟨fid, host, ftok⟩ fid2 ftok2 ok2 hf
  | false =>
    have hred : (if (false : Bool) then s.db ++ [(⟨fid, host, ftok⟩ : RoomCreds)] else s.db)
        = s.db := rfl
    rw [hred]
    have hfn : s.rooms.find? (fun kv => kv.2.host == host) = none := by
      rcases hfm : s.rooms.find? (fun kv => kv.2.host == host) with _ | kv
      · exact hfm
      · rw [scanRoomsForHost, hfm] at h2
        simp at h2
    have hscan2 : scanRoomsForHost
        (mapInsert fid (Room.mkNew host fid ftok) s.rooms) host
        = some ⟨fid, host, ftok⟩ := by
      unfold scanRoomsForHost
      rw [find?_mapInsert_of_none _ _ _ _ hfn (by simp [Room.mkNew])]
      simp [Room.mkNew]
    exact create_room_scan_found
      ⟨mapInsert fid (Room.mkNew host fid ftok) s.rooms, s.db⟩
      host ⟨fid, host, ftok⟩ fid2 ftok2 ok2 h1 hscan2

/-- Claim C7: a second CreateRoom for the same host returns the same
credentials and the same registry state (so no extra room is
inserted); and after a simulated restart — a fresh registry hydrated
from the persistent store — CreateRoom still returns the original
credentials whenever the store holds the room. -/
theorem c7_create_room_idempotent (s : ServerState) (host : String)
    (fid1 : RoomId) (ftok1 : String) (ok1 : Bool)
    (fid2 : RoomId) (ftok2 : String) (ok2 : Bool) :
    BingoServer.create_room (BingoServer.create_room s host fid1 ftok1 ok1).2 host fid2 ftok2 ok2
      = BingoServer.create_room s host fid1 ftok1 ok1 ∧
    (dbFindByHost (BingoServer.create_room s host fid1 ftok1 ok1).2.db host
        = some (BingoServer.create_room s host fid1 ftok1 ok1).1 →
      ∀ fid3 ftok3 ok3,
        BingoServer.create_room
          { rooms := BingoServer.populate_rooms (BingoServer.create_room s host fid1 ftok1 ok1).2.db,
            db := (BingoServer.create_room s host fid1 ftok1 ok1).2.db } host fid3 ftok3 ok3
          = ((BingoServer.create_room s host fid1 ftok1 ok1).1,
             { rooms := BingoServer.populate_rooms (BingoServer.create_room s host fid1 ftok1 ok1).2.db,
               db := (BingoServer.create_room s host fid1 ftok1 ok1).2.db })) := by
  constructor
  · rcases hdb : dbFindByHost s.db host with _ | row
    · rcases hscan : scanRoomsForHost s.rooms host with _ | creds
      · exact create_room_after_mint s host fid1 ftok1 ok1 hdb hscan fid2 ftok2 ok2
      · rw [create_room_scan_found s host creds fid1 ftok1 ok1 hdb hscan]
        exact create_room_scan_found s host creds fid2 ftok2 ok2 hdb hscan
    · rw [create_room_db_found s host row fid1 ftok1 ok1 hdb]
      exact create_room_db_found s host row fid2 ftok2 ok2 hdb
  · intro hdb3 fid3 ftok3 ok3
    exact create_room_db_found _ host _ fid3 ftok3 ok3 hdb3

/-- Claim C7, witness: a mint on the empty registry with a successful
persist, then a restart hydrated from the store, returns the original
credentials. -/
theorem c7_create_room_idempotent_witness :
    BingoServer.create_room
      { rooms := BingoServer.populate_rooms (BingoServer.create_room ⟨[], []⟩ ("alice") 1 ("t1") true).2.db,
        db := (BingoServer.create_room ⟨[], []⟩ ("alice") 1 ("t1") true).2.db } ("alice") 2 ("t2") false
      = ((BingoServer.create_room ⟨[], []⟩ ("alice") 1 ("t1") true).1,
         { rooms := BingoServer.populate_rooms (BingoServer.create_room ⟨[], []⟩ ("alice") 1 ("t1") true).2.db,
           db := (BingoServer.create_room ⟨[], []⟩ ("alice") 1 ("t1") true).2.db }) :=
  (c7_create_room_idempotent ⟨[], []⟩ ("alice") 1 ("t1") true 9 ("x") false).2 (by rfl) 2 ("t2") false

theorem sessions_count_general (ops : List RoomOp) :
    ∀ r : RoomState, rolesOk ops = true → collisionFree r ops = true →
      ((applyOps r ops).sessions.length : Int) =
        (r.sessions.length : Int) + numClientJoins ops - effClientLeaves r ops := by
  induction ops with
  | nil =>
    intro r _ _
    simp [applyOps, numClientJoins, effClientLeaves]
  | cons op t ih =>
    intro r hroles hcf
    have hApply : applyOps r (op :: t) = applyOps (applyOp r op) t := by
      simp [applyOps]
    rw [hApply]
    cases op with
    | join p ut rng =>
      simp only [rolesOk, Bool.and_eq_true, Bool.or_eq_true, beq_iff_eq] at hroles
      simp only [collisionFree, Bool.and_eq_true, Bool.or_eq_true, beq_iff_eq] at hcf
      obtain ⟨hut, hrt⟩ := hroles
      obtain ⟨hc1, hct⟩ := hcf
      by_cases hh : ut = USER_HOST
      · subst hh
        have hIH := ih (applyOp r (RoomOp.join p USER_HOST rng)) hrt hct
        have hB : (applyOp r (RoomOp.join p USER_HOST rng)).sessions.length
            = r.sessions.length := by
          simp [applyOp, Room.add_client]
        simp only [numClientJoins, effClientLeaves]
        simp [USER_HOST, USER_CLIENT] at hIH hB ⊢
        omega
      · have hcl : ut = USER_CLIENT := hut.resolve_left hh
        subst hcl
        have hget : mapGet rng r.sessions = none := by
          rcases hc1 with hcH | hcK
          · exact absurd hcH hh
          · have hfalse : mapHasKey rng r.sessions = false := by
              cases hb : mapHasKey rng r.sessions
              · rfl
              · rw [hb] at hcK; simp at hcK
            unfold mapHasKey at hfalse
            exact Option.not_isSome_iff_eq_none.mp (by simp [hfalse])
        have hIH := ih (applyOp r (RoomOp.join p USER_CLIENT rng)) hrt hct
        have hB : (applyOp r (RoomOp.join p USER_CLIENT rng)).sessions.length
            = r.sessions.length + 1 := by
          have hsess : (applyOp r (RoomOp.join p USER_CLIENT rng)).sessions
              = mapInsert rng p r.sessions := by
            simp [applyOp, Room.add_client, USER_CLIENT, USER_HOST]
          rw [hsess]
          exact length_mapInsert_absent _ _ _ hget
        simp only [numClientJoins, effClientLeaves]
        norm_num
        omega
    | leave c ut =>
      simp only [rolesOk, Bool.and_eq_true, Bool.or_eq_true, beq_iff_eq] at hroles
      simp only [collisionFree, Bool.true_and] at hcf
      obtain ⟨hut, hrt⟩ := hroles
      by_cases hh : ut = USER_HOST
      · subst hh
        have hIH := ih (applyOp r (RoomOp.leave c USER_HOST)) hrt hcf
        have hB : (applyOp r (RoomOp.leave c USER_HOST)).sessions.length
            = r.sessions.length := by
          simp [applyOp, Room.remove_client]
        simp only [numClientJoins, effClientLeaves]
        simp [USER_HOST, USER_CLIENT] at hIH hB ⊢
        omega
      · have hcl : ut = USER_CLIENT := hut.resolve_left hh
        subst hcl
        have hIH := ih (applyOp r (RoomOp.leave c USER_CLIENT)) hrt hcf
        have hsess : (applyOp r (RoomOp.leave c USER_CLIENT)).sessions
            = mapRemove c r.sessions := by
          simp [applyOp, Room.remove_client, USER_CLIENT, USER_HOST]
        cases hk : mapHasKey c r.sessions with
        | true =>
          have hB : (applyOp r (RoomOp.leave c USER_CLIENT)).sessions.length + 1
              = r.sessions.length := by
            rw [hsess]
            apply length_mapRemove_present
            unfold mapHasKey at hk
            exact hk
          simp only [numClientJoins, effClientLeaves, hk]
          norm_num
          omega
        | false =>
          have hget : mapGet c r.sessions = none := by
            unfold mapHasKey at hk
            exact Option.not_isSome_iff_eq_none.mp (by simp [hk])
          have hB : (applyOp r (RoomOp.leave c USER_CLIENT)).sessions.length
              = r.sessions.length := by
            rw [hsess, mapRemove_absent _ _ hget]
          simp only [numClientJoins, effClientLeaves, hk]
          norm_num
          omega

/-- Claim C8, counterexample: two client joins whose random draws
collide on id 5 leave one session entry, not two — the second insert
replaces the first — so the count is not the number of client joins
minus the effective client leaves. -/
theorem c8_counterexample :
    (applyOps (Room.mkNew ("alice") 1 ("tok"))
        [RoomOp.join (Pipe.chan 1) USER_CLIENT 5,
         RoomOp.join (Pipe.chan 2) USER_CLIENT 5]).sessions.length = 1 ∧
    numClientJoins
        [RoomOp.join (Pipe.chan 1) USER_CLIENT 5,
         RoomOp.join (Pipe.chan 2) USER_CLIENT 5] = 2 ∧
    effClientLeaves (Room.mkNew ("alice") 1 ("tok"))
        [RoomOp.join (Pipe.chan 1) USER_CLIENT 5,
         RoomOp.join (Pipe.chan 2) USER_CLIENT 5] = 0 :=
  ⟨rfl, rfl, rfl⟩

/-- Claim C8, amended: whenever every client join draws an id not
currently bound (no ConnId collision — the source does not check
this), the session count after any finite Join/Leave sequence on a
freshly created room equals the number of client joins minus the
number of client leaves that named a then-present id; leaves naming
an absent id change nothing. -/
theorem c8_session_count (host : String) (fid : RoomId) (ftok : String)
    (ops : List RoomOp) (hroles : rolesOk ops = true)
    (hcf : collisionFree (Room.mkNew host fid ftok) ops = true) :
    ((applyOps (Room.mkNew host fid ftok) ops).sessions.length : Int) =
      numClientJoins ops - effClientLeaves (Room.mkNew host fid ftok) ops := by
  have hgen := sessions_count_general ops (Room.mkNew host fid ftok) hroles hcf
  simpa [Room.mkNew] using hgen

/-- Claim C8, witness: two distinct client joins, one effective client
leave, one no-op client leave and one host leave give one session. -/
theorem c8_session_count_witness :
    ((applyOps (Room.mkNew ("alice") 1 ("tok"))
        [RoomOp.join (Pipe.chan 1) USER_CLIENT 5,
         RoomOp.join (Pipe.chan 2) USER_CLIENT 9,
         RoomOp.leave 5 USER_CLIENT,
         RoomOp.leave 5 USER_CLIENT,
         RoomOp.leave 4 USER_HOST]).sessions.length : Int) =
      numClientJoins
        [RoomOp.join (Pipe.chan 1) USER_CLIENT 5,
         RoomOp.join (Pipe.chan 2) USER_CLIENT 9,
         RoomOp.leave 5 USER_CLIENT,
         RoomOp.leave 5 USER_CLIENT,
         RoomOp.leave 4 USER_HOST] -
      effClientLeaves (Room.mkNew ("alice") 1 ("tok"))
        [RoomOp.join (Pipe.chan 1) USER_CLIENT 5,
         RoomOp.join (Pipe.chan 2) USER_CLIENT 9,
         RoomOp.leave 5 USER_CLIENT,
         RoomOp.leave 5 USER_CLIENT,
         RoomOp.leave 4 USER_HOST] :=
  c8_session_count ("alice") 1 ("tok") _ (by rfl) (by rfl)

/-- Claim C9: DirectSend to an id absent from the session map attempts
no delivery, leaves the registry (and hence the room) unchanged and
reports no error; to a present id it delivers to exactly that one
session. -/
theorem c9_direct_send (s : ServerState) (rid : RoomId) (r : RoomState)
    (conn : ConnId) (msg : Msg) (hr : mapGet rid s.rooms = some r) :
    (mapGet conn r.sessions = none →
      BingoServer.step s (Command.sendTo rid conn msg) = some (s, [], Reply.unitReply)) ∧
    (∀ p, mapGet conn r.sessions = some p →
      BingoServer.step s (Command.sendTo rid conn msg) =
        some (s, [(Target.toSession conn p, msg)], Reply.unitReply)) := by
  constructor
  · intro h
    simp [BingoServer.step, BingoServer.send, hr, Room.send, h]
  · intro p h
    simp [BingoServer.step, BingoServer.send, hr, Room.send, h]

/-- Claim C9, witness: a DirectSend to id 7 in the sample registry,
whose only room has no sessions, is a recorded no-op. -/
theorem c9_direct_send_witness :
    BingoServer.step sampleServer (Command.sendTo 1 7 ("m")) =
      some (sampleServer, [], Reply.unitReply) :=
  (c9_direct_send sampleServer 1 (Room.mkNew ("alice") 1 ("tok")) 7 ("m") (by rfl)).1 (by rfl)

/-- Claim C10: a host leave ignores the connection id entirely: it
resets the host pipe to a fresh disconnected sink, keeps the session
map intact, and gives the same state for every id. -/
theorem c10_host_leave_ignores_conn (r : RoomState) (c : ConnId) :
    Room.remove_client r c USER_HOST = { r with host_pipe := Pipe.sink } ∧
    Room.remove_client r c USER_HOST = Room.remove_client r 0 USER_HOST ∧
    (Room.remove_client r c USER_HOST).sessions = r.sessions := by
  refine ⟨?_, ?_, ?_⟩ <;> simp [Room.remove_client]

end Bingo
